import Mathlib

/-!
Shallow embedding of the ShX shell (`tracker.go`) and proofs about it.

The shell's core functions are translated one-to-one into Lean:
the tokenizer `parseCommand`, the redirection extractor
`processRedirectionOperators`, the completion engine `autocomplete` with
`longestCommonPrefix`, the dispatcher decision of `main`, and the
message-routing logic of `executeCommand` / `executeExternalWithRedirection` /
`outputError` / `executeBuiltinWithRedirection`.  Environmental effects
(filesystem contents, search-path lookup results, file-open success) appear as
explicit parameters; Go strings are modelled as Lean `String`, operated on
character-wise (the shell's syntax characters are all ASCII, where Go's
byte-wise operations and character-wise operations agree).
-/

set_option autoImplicit false

namespace ShX

/-! ### String helpers (models of Go's `strings` package functions) -/

/-- Model of `strings.HasPrefix` on character lists. -/
def isPrefixList : List Char → List Char → Bool
  | [], _ => true
  | _ :: _, [] => false
  | c :: cs, d :: ds => c = d && isPrefixList cs ds

/-- Model of `strings.HasPrefix(s, pre)`. -/
def hasPrefixS (s pre : String) : Bool :=
  isPrefixList pre.data s.data

/-- Model of `strings.TrimPrefix(s, pre)`. -/
def trimPrefixS (s pre : String) : String :=
  if hasPrefixS s pre then String.mk (s.data.drop pre.data.length) else s

/-- Character-wise lexicographic order on character lists, the order used by
`sort.Strings` (byte-wise in Go; identical on ASCII data). -/
def leListChar : List Char → List Char → Bool
  | [], _ => true
  | _ :: _, [] => false
  | c :: cs, d :: ds => if c = d then leListChar cs ds else decide (c < d)

/-- Lexicographic comparison of strings, as used by `sort.Strings`. -/
def strLeB (a b : String) : Bool :=
  leListChar a.data b.data

/-- Model of `sort.Strings`. -/
def sortStrings (l : List String) : List String :=
  l.insertionSort (fun a b => strLeB a b = true)

/-- The single-quote character (written via its code point to keep the
development free of quote-character literals). -/
def squote : Char := Char.ofNat 39

/-- The double-quote character. -/
def dquote : Char := Char.ofNat 34

/-- The backtick character. -/
def bquote : Char := Char.ofNat 96

/-! ### Builtin name tables

`tracker.go` holds three separate listings of builtin names:
`builtinCMDs` (used by the completion engine), the `builtins` map literal
built in `main` (used for dispatch), and the `builtins` map literal inside
`typeHandler` (used by the `type` builtin to classify a name).
-/

/-- The global `builtinCMDs` slice consulted by `autocomplete`. -/
def builtinCMDs : List String :=
  ["exit", "echo", "type", "pwd", "cd", "clear", "ls", "cat", "cp", "mv",
   "rm", "mkdir", "rmdir"]

/-- The keys of the `builtins` handler map constructed in `main`, in source
order; `main` dispatches a first token to a builtin handler exactly when it is
a key of this map. -/
def dispatchTable : List String :=
  ["exit", "echo", "type", "pwd", "cd", "clear", "ls", "cat", "cp", "mv",
   "rm", "mkdir", "rmdir"]

/-- The keys of the `builtins` map literal inside `typeHandler`: the names the
`type` builtin reports as `"<name> is a shell builtin"`. -/
def typeBuiltins : List String :=
  ["echo", "exit", "type", "pwd", "cd"]

/-- Whether `typeHandler` classifies `cmd` as a shell builtin. -/
def typeIsBuiltin (cmd : String) : Bool :=
  typeBuiltins.contains cmd

/-- Whether `main` routes a command name to a builtin handler. -/
def dispatchIsBuiltin (cmd : String) : Bool :=
  dispatchTable.contains cmd

/-! ### Tokenizer (`parseCommand`) -/

/-- The scanner state of `parseCommand`: the emitted tokens (`result`), the
token under construction (`current`), and the three flags
`inSingleQuote`, `inDoubleQuote`, `escaped`. -/
structure ParseSt where
  result : List String
  current : List Char
  inSingle : Bool
  inDouble : Bool
  escaped : Bool
  deriving DecidableEq, Repr

/-- One iteration of the scanning loop of `parseCommand`, processing the
character `c` in state `st`. -/
def parseStep (st : ParseSt) (c : Char) : ParseSt :=
  if st.escaped then
    if st.inDouble &&
        !(c = '$' || c = bquote || c = dquote || c = '\\' || c = '\n') then
      { st with current := st.current ++ ['\\', c], escaped := false }
    else
      { st with current := st.current ++ [c], escaped := false }
  else if c = '\\' then
    if st.inSingle then { st with current := st.current ++ [c] }
    else { st with escaped := true }
  else if c = squote then
    if !st.inDouble then { st with inSingle := !st.inSingle }
    else { st with current := st.current ++ [c] }
  else if c = dquote then
    if !st.inSingle then { st with inDouble := !st.inDouble }
    else { st with current := st.current ++ [c] }
  else if c = ' ' then
    if !st.inSingle && !st.inDouble then
      if st.current.length > 0 then
        { st with result := st.result ++ [String.mk st.current], current := [] }
      else st
    else { st with current := st.current ++ [c] }
  else
    { st with current := st.current ++ [c] }

/-- The initial scanner state of `parseCommand`. -/
def parseInit : ParseSt :=
  { result := [], current := [], inSingle := false, inDouble := false,
    escaped := false }

/-- Model of `parseCommand`: scan the line and flush a pending non-empty
token at end of input. -/
def parseCommand (command : String) : List String :=
  let st := command.data.foldl parseStep parseInit
  st.result ++ (if st.current.length > 0 then [String.mk st.current] else [])

/-! ### Redirection extractor (`processRedirectionOperators`) -/

/-- The five-component return value of `processRedirectionOperators`. -/
structure RedirResult where
  fields : List String
  stdoutFile : String
  stderrFile : String
  stdoutAppend : Bool
  stderrAppend : Bool
  deriving DecidableEq, Repr

/-- The scanning loop of `processRedirectionOperators`, carrying the current
values of `stdoutFile`, `stderrFile`, `stdoutAppend`, `stderrAppend`.
`none` models the `syntax error: no file specified for redirection` branch
(which prints the error and returns empty fields).  Note that the
`">"`/`"1>"` case overwrites `stdoutFile` but leaves `stdoutAppend`
untouched, and likewise `"2>"` leaves `stderrAppend` untouched, exactly as
the Go `switch` does. -/
def extractAux : List String → String → String → Bool → Bool → Option RedirResult
  | [], so, se, soA, seA => some ⟨[], so, se, soA, seA⟩
  | token :: rest, so, se, soA, seA =>
    if token = ">>" || token = "1>>" then
      match rest with
      | [] => none
      | tgt :: rest2 => extractAux rest2 tgt se true seA
    else if token = ">" || token = "1>" then
      match rest with
      | [] => none
      | tgt :: rest2 => extractAux rest2 tgt se soA seA
    else if token = "2>" then
      match rest with
      | [] => none
      | tgt :: rest2 => extractAux rest2 so tgt soA seA
    else if token = "2>>" then
      match rest with
      | [] => none
      | tgt :: rest2 => extractAux rest2 so tgt soA true
    else
      (extractAux rest so se soA seA).map
        (fun r => { r with fields := token :: r.fields })

/-- Model of `processRedirectionOperators`. -/
def processRedirectionOperators (fields : List String) : Option RedirResult :=
  extractAux fields "" "" false false

/-- Whether a token is one of the six recognized redirection operators. -/
def isRedirOp (t : String) : Bool :=
  t = ">>" || t = "1>>" || t = ">" || t = "1>" || t = "2>" || t = "2>>"

/-- The operator and target tokens the extraction scan consumes, in scan
order (a companion to `extractAux`, used to state token preservation). -/
def redirConsumed : List String → List String
  | [] => []
  | token :: rest =>
    if isRedirOp token then
      match rest with
      | [] => []
      | tgt :: rest2 => token :: tgt :: redirConsumed rest2
    else redirConsumed rest

/-- Whether the extraction scan reaches a redirection operator that has no
following token (the condition under which the scan reports a syntax error). -/
def scanHitsTrailingOp : List String → Bool
  | [] => false
  | token :: rest =>
    if isRedirOp token then
      match rest with
      | [] => true
      | _ :: rest2 => scanHitsTrailingOp rest2
    else scanHitsTrailingOp rest

/-! ### Dispatcher (the routing logic of `main`) -/

/-- What `main` does with one tokenized line after redirection extraction:
nothing (empty remaining fields), report a syntax error and execute nothing,
run a builtin handler, or run an external command. -/
inductive Action where
  | nothing
  | syntaxErr
  | runBuiltin (name : String) (fields : List String) (r : RedirResult)
  | runExternal (fields : List String) (r : RedirResult)
  deriving DecidableEq, Repr

/-- The routing `main` performs on a token sequence: extract redirections
(`continue` on the syntax-error empty result), skip empty field lists, then
dispatch on membership of the first token in the `builtins` map. -/
def dispatchTokens (tokens : List String) : Action :=
  match processRedirectionOperators tokens with
  | none => .syntaxErr
  | some r =>
    match r.fields with
    | [] => .nothing
    | f :: _ =>
      if dispatchIsBuiltin f then .runBuiltin f r.fields r
      else .runExternal r.fields r

/-! ### External command execution and the not-found message

`executeCommand`, `executeExternalWithRedirection` and `outputError` are
embedded at the level of their observable decisions: whether a process is
spawned, and where the `"<name>: command not found"` message is written.
The environment supplies the outcome of `exec.LookPath` (`lookupOk`), of
`cmd.Run` (`runOk`), and of opening the stderr redirection target
(`openStderrOk`).
-/

/-- A destination the shell can write a message to: its own stdout, its own
stderr, or an opened redirection target file. -/
inductive Dest where
  | stdout
  | stderr
  | targetFile (path : String) (app : Bool)
  deriving DecidableEq, Repr

/-- The observable outcome of trying to run an external command: whether a
process was spawned and the destination of the not-found message when one is
printed. -/
structure ExtResult where
  spawned : Bool
  msg : Option (String × Dest)
  deriving DecidableEq, Repr

/-- The message `outputError` and `executeCommand` build for a missing
command. -/
def notFoundMsg (cmdName : String) : String :=
  cmdName ++ ": command not found"

/-- Model of `outputError`: the destination of the not-found message.  With a
stderr redirection target set, the message goes to the opened target; when
that open fails only the open error is printed (the message itself is lost,
modelled as `none`).  Without a target the message goes to `os.Stderr`. -/
def outputError (cmdName stderrFile : String) (appendMode : Bool)
    (openStderrOk : Bool) : Option (String × Dest) :=
  if stderrFile ≠ "" then
    if openStderrOk then some (notFoundMsg cmdName, .targetFile stderrFile appendMode)
    else none
  else some (notFoundMsg cmdName, .stderr)

/-- Model of `executeCommand`: `exec.Command` records a failed path lookup in
the command value, so `cmd.Run` on an unresolvable name returns that error
without starting any process; on any `Run` error the function prints the
not-found message with `fmt.Println`, i.e. to the shell's standard output. -/
def executeCommand (cmdName : String) (lookupOk runOk : Bool) : ExtResult :=
  if !lookupOk then ⟨false, some (notFoundMsg cmdName, .stdout)⟩
  else if !runOk then ⟨true, some (notFoundMsg cmdName, .stdout)⟩
  else ⟨true, none⟩

/-- Model of `executeExternalWithRedirection`: with no redirection at all it
delegates to `executeCommand`; otherwise it resolves the name with
`exec.LookPath`, reporting through `outputError` on failure, and on success
opens the targets and spawns (an open failure prints an open error and spawns
nothing; no not-found message is involved on that path). -/
def executeExternalWithRedirection (cmdName stdoutFile stderrFile : String)
    (stderrAppend : Bool) (lookupOk runOk openStdoutOk openStderrOk : Bool) :
    ExtResult :=
  if stdoutFile = "" && stderrFile = "" then
    executeCommand cmdName lookupOk runOk
  else if !lookupOk then
    ⟨false, outputError cmdName stderrFile stderrAppend openStderrOk⟩
  else if stdoutFile ≠ "" && !openStdoutOk then ⟨false, none⟩
  else if stderrFile ≠ "" && !openStderrOk then ⟨false, none⟩
  else ⟨true, none⟩

/-! ### Completion engine (`autocomplete` and `longestCommonPrefix`) -/

/-- One directory entry as seen through `os.ReadDir`. -/
structure DirEntry where
  name : String
  isDir : Bool
  deriving DecidableEq, Repr

/-- The directories `autocomplete` scans (`"."` followed by the split
`PATH`), each either readable with its entries or unreadable (`none`,
silently skipped as in the Go code). -/
abbrev FileSys := List (Option (List DirEntry))

/-- The body of the inner loop of the path search in `autocomplete`:
directories are skipped, and a non-directory entry is added when its name
starts with the sought text, differs from it, and was not already found.
(The Go code tracks seen names in a `found` map; that map always holds
exactly the names already in `matches`, so the accumulator doubles as it.) -/
def entryStep (pfx : String) (acc : List String) (e : DirEntry) : List String :=
  if e.isDir then acc
  else if hasPrefixS e.name pfx && e.name != pfx && !(acc.contains e.name) then
    acc ++ [e.name]
  else acc

/-- The body of the outer loop of the path search: an unreadable directory is
skipped, a readable one contributes its entries. -/
def dirStep (pfx : String) (acc : List String) (d : Option (List DirEntry)) :
    List String :=
  match d with
  | none => acc
  | some entries => entries.foldl (entryStep pfx) acc

/-- The fallback path search of `autocomplete` over all directories. -/
def pathSearch (fs : FileSys) (pfx : String) : List String :=
  fs.foldl (dirStep pfx) []

/-- The builtin-table search of `autocomplete`: names with the sought text as
a proper starting segment, in table order. -/
def builtinMatchesOf (builtins : List String) (pfx : String) : List String :=
  builtins.filter (fun cmd => hasPrefixS cmd pfx && cmd != pfx)

/-- The candidate-gathering phase of `autocomplete`: builtin matches first,
the path search only when there are none. -/
def gatherMatches (builtins : List String) (fs : FileSys) (pfx : String) :
    List String :=
  let m := builtinMatchesOf builtins pfx
  if m = [] then pathSearch fs pfx else m

/-- The shrinking loop of `longestCommonPrefix` for one candidate `s`: drop
the last character of the running starting segment until `s` starts with it.
The Go loop terminates because the segment shrinks to `""`; here the
(always-sufficient) fuel `pfx.length + 1` makes that termination explicit. -/
def shrinkAux : Nat → String → String → String
  | 0, _, _ => ""
  | n + 1, s, pfx =>
    if hasPrefixS s pfx then pfx
    else shrinkAux n s (String.mk (pfx.data.dropLast))

/-- Model of `longestCommonPrefix`: start from the first candidate and shrink
against each of the others; the empty list yields `""`. -/
def longestCommonPrefix (strs : List String) : String :=
  match strs with
  | [] => ""
  | p :: rest => rest.foldl (fun pfx s => shrinkAux (pfx.data.length + 1) s pfx) p

/-- Model of `autocomplete`.  The Go function reads the global `builtinCMDs`
and the filesystem; both are explicit parameters here.  Returns the
insertable suffix and the (sorted) match list, `("", [])` standing for Go's
`"", nil`. -/
def autocomplete (builtins : List String) (fs : FileSys) (pfx : String)
    (tabCount : Nat) : String × List String :=
  if pfx = "" then ("", [])
  else
    let ms := gatherMatches builtins fs pfx
    if ms = [] then ("", [])
    else
      let sorted := sortStrings ms
      if sorted.length = 1 then
        (trimPrefixS (sorted.headD "") pfx, sorted)
      else
        let lcp := longestCommonPrefix sorted
        if pfx.data.length < lcp.data.length then
          (String.mk (lcp.data.drop pfx.data.length), sorted)
        else if tabCount > 1 then ("", sorted)
        else ("", [])

/-- What the Tab branch of `readInputWithAutocomplete` does with the value
returned by `autocomplete`: display all matches, insert the suffix (plus a
trailing space when there was exactly one match), or ring the bell. -/
inductive TabOutcome where
  | display (ms : List String)
  | insert (s : String)
  | bell
  deriving DecidableEq, Repr

/-- The response of the line reader to a Tab press with the current buffer
`pfx` as the sought text and `tabCount` consecutive presses. -/
def tabRespond (builtins : List String) (fs : FileSys) (pfx : String)
    (tabCount : Nat) : TabOutcome :=
  let (result, ms) := autocomplete builtins fs pfx tabCount
  if ms.length > 1 && tabCount > 1 && result = "" then .display ms
  else if result ≠ "" then
    .insert (result ++ (if ms.length = 1 then " " else ""))
  else .bell

/-! ### Builtin execution with redirection (`executeBuiltinWithRedirection`)

To talk about the file-system side effects of opening redirection targets,
paths are given an abstract state: absent, an openable file with contents, or
unopenable (open fails, e.g. for permissions).  `openFile` mirrors the Go
helper: truncate mode is `os.Create` (create-or-truncate), append mode is
`os.OpenFile(..., O_APPEND|O_CREATE|O_WRONLY, ...)` (create-or-keep).
-/

/-- The state of one path in the abstract file system. -/
inductive PathSt where
  | absent
  | file (content : String)
  | unopenable
  deriving DecidableEq, Repr

/-- An abstract file system: an association list from path to state; paths
not listed are absent. -/
abbrev FS := List (String × PathSt)

/-- Look up the state of a path. -/
def fsGet (fs : FS) (path : String) : PathSt :=
  match fs with
  | [] => .absent
  | (p, st) :: rest => if p = path then st else fsGet rest path

/-- Overwrite (or add) the state of a path. -/
def fsSet (fs : FS) (path : String) (st : PathSt) : FS :=
  match fs with
  | [] => [(path, st)]
  | (p, st0) :: rest =>
    if p = path then (p, st) :: rest else (p, st0) :: fsSet rest path st

/-- Model of `openFile`: returns the file system after a successful open,
`none` when the open fails.  Opening creates an absent file; truncate mode
empties an existing file's content, append mode keeps it. -/
def openFile (fs : FS) (fileName : String) (appendMode : Bool) : Option FS :=
  match fsGet fs fileName with
  | .unopenable => none
  | .absent => some (fsSet fs fileName (.file ""))
  | .file content =>
    some (fsSet fs fileName (.file (if appendMode then content else "")))

/-- Model of `executeBuiltinWithRedirection` at the level of file-system
effects: open the stdout target first (returning on failure), then the stderr
target (returning on failure, with the stdout target already opened), then
invoke the handler.  Returns whether the handler was invoked and the
resulting file system. -/
def executeBuiltinWithRedirection (fs : FS) (stdoutFile stderrFile : String)
    (stdoutAppend stderrAppend : Bool) : Bool × FS :=
  if stdoutFile ≠ "" then
    match openFile fs stdoutFile stdoutAppend with
    | none => (false, fs)
    | some fs1 =>
      if stderrFile ≠ "" then
        match openFile fs1 stderrFile stderrAppend with
        | none => (false, fs1)
        | some fs2 => (true, fs2)
      else (true, fs1)
  else if stderrFile ≠ "" then
    match openFile fs stderrFile stderrAppend with
    | none => (false, fs)
    | some fs1 => (true, fs1)
  else (true, fs)

/-! ### Lemmas about the extraction scan -/

theorem extractAux_append (ts suffix : List String) (so se : String) (soA seA : Bool)
    (r : RedirResult) (h : extractAux ts so se soA seA = some r) :
    extractAux (ts ++ suffix) so se soA seA =
      (extractAux suffix r.stdoutFile r.stderrFile r.stdoutAppend r.stderrAppend).map
        (fun r2 => ⟨r.fields ++ r2.fields, r2.stdoutFile, r2.stderrFile,
                    r2.stdoutAppend, r2.stderrAppend⟩) := by
  induction ts, so, se, soA, seA using extractAux.induct generalizing r
  case case1 =>
    rw [extractAux.eq_def] at h
    injection h with h
    subst h
    cases hx : extractAux suffix _ _ _ _ <;> simp [hx]
  case case10 =>
    rename_i token rest so se soA seA hne1 hne2 hne3 hne4 ih
    rw [List.cons_append]
    rw [extractAux.eq_def] at h
    rw [extractAux.eq_def]
    simp only [if_neg hne1, if_neg hne2, if_neg hne3, if_neg hne4] at h ⊢
    rcases Option.map_eq_some'.mp h with ⟨r1, hr1, hcons⟩
    rw [ih r1 hr1]
    subst hcons
    cases hx : extractAux suffix r1.stdoutFile r1.stderrFile r1.stdoutAppend r1.stderrAppend <;>
      simp [hx]
  all_goals (try (simp_all [extractAux]))

theorem isRedirOp_iff (t : String) :
    isRedirOp t = true ↔
      t = ">>" ∨ t = "1>>" ∨ t = ">" ∨ t = "1>" ∨ t = "2>" ∨ t = "2>>" := by
  simp [isRedirOp, or_assoc]

theorem extractAux_perm (ts : List String) (so se : String) (soA seA : Bool)
    (r : RedirResult) (h : extractAux ts so se soA seA = some r) :
    (r.fields ++ redirConsumed ts).Perm ts := by
  induction ts, so, se, soA, seA using extractAux.induct generalizing r
  all_goals (try (simp_all [extractAux, redirConsumed, isRedirOp]))
  case case1 => rw [← h]
  case case10 =>
    rename_i token rest so se soA seA hne1 hne2 hne3 hne4 ih
    have h1 : ¬((decide (token = ">>") || decide (token = "1>>")) = true) := by
      simp [hne1.1, hne1.2]
    have h2 : ¬((decide (token = ">") || decide (token = "1>")) = true) := by
      simp [hne2.1, hne2.2]
    have hop : ¬(isRedirOp token = true) := by
      simp [isRedirOp, hne1.1, hne1.2, hne2.1, hne2.2, hne3, hne4]
    rw [extractAux.eq_def] at h
    dsimp only at h
    rw [if_neg h1, if_neg h2, if_neg hne3, if_neg hne4] at h
    rcases Option.map_eq_some'.mp h with ⟨r1, hr1, hcons⟩
    subst hcons
    rw [redirConsumed.eq_def]
    dsimp only
    rw [if_neg hop]
    simp only [List.cons_append]
    exact List.Perm.cons _ (ih r1 hr1)
  all_goals
    exact List.perm_middle.trans
      (List.Perm.cons _ (List.perm_middle.trans (List.Perm.cons _ (by assumption))))

theorem extractAux_none_iff (ts : List String) (so se : String) (soA seA : Bool) :
    extractAux ts so se soA seA = none ↔ scanHitsTrailingOp ts = true := by
  induction ts, so, se, soA, seA using extractAux.induct
  all_goals (try (simp_all [extractAux, scanHitsTrailingOp, redirConsumed, isRedirOp]))
  rename_i token rest so se soA seA hne1 hne2 hne3 hne4 ih
  have h1 : ¬((decide (token = ">>") || decide (token = "1>>")) = true) := by
    simp [hne1.1, hne1.2]
  have h2 : ¬((decide (token = ">") || decide (token = "1>")) = true) := by
    simp [hne2.1, hne2.2]
  have hop : ¬(isRedirOp token = true) := by
    simp [isRedirOp, hne1.1, hne1.2, hne2.1, hne2.2, hne3, hne4]
  rw [extractAux.eq_def]
  dsimp only
  rw [if_neg h1, if_neg h2, if_neg hne3, if_neg hne4]
  rw [scanHitsTrailingOp.eq_def]
  dsimp only
  rw [if_neg hop]
  simp [Option.map_eq_none', ih]

/-- Claim C1, counterexample: on `["a", ">>", "x.txt", ">", "y.txt"]` the later
`>` sets the target to `y.txt` but the append flag from the earlier `>>`
survives (`stdoutAppend = true`), so the extraction result is NOT the one
determined by the last stdout operator alone (which would be truncate mode). -/
theorem C1_counterexample :
    processRedirectionOperators ["a", ">>", "x.txt", ">", "y.txt"] =
      some ⟨["a"], "y.txt", "", true, false⟩ ∧
    ¬ (processRedirectionOperators ["a", ">>", "x.txt", ">", "y.txt"] =
        some ⟨["a"], "y.txt", "", false, false⟩) := by
  decide

/-- Claim C1, amended: appending one more redirection operator and target to a
successfully extracted token sequence overwrites that stream's target path
with the new target, but the append flag is sticky: a truncate operator
(`>`, `1>`, `2>`) leaves the previously accumulated append flag unchanged,
while an append operator (`>>`, `1>>`, `2>>`) sets it.  Only the target path
is governed by the last occurrence of a stream's operator. -/
theorem C1_last_target_wins_append_sticky (ts : List String) (r : RedirResult)
    (tgt : String) (h : processRedirectionOperators ts = some r) :
    processRedirectionOperators (ts ++ [">", tgt]) =
        some ⟨r.fields, tgt, r.stderrFile, r.stdoutAppend, r.stderrAppend⟩ ∧
    processRedirectionOperators (ts ++ ["1>", tgt]) =
        some ⟨r.fields, tgt, r.stderrFile, r.stdoutAppend, r.stderrAppend⟩ ∧
    processRedirectionOperators (ts ++ [">>", tgt]) =
        some ⟨r.fields, tgt, r.stderrFile, true, r.stderrAppend⟩ ∧
    processRedirectionOperators (ts ++ ["1>>", tgt]) =
        some ⟨r.fields, tgt, r.stderrFile, true, r.stderrAppend⟩ ∧
    processRedirectionOperators (ts ++ ["2>", tgt]) =
        some ⟨r.fields, r.stdoutFile, tgt, r.stdoutAppend, r.stderrAppend⟩ ∧
    processRedirectionOperators (ts ++ ["2>>", tgt]) =
        some ⟨r.fields, r.stdoutFile, tgt, r.stdoutAppend, true⟩ := by
  unfold processRedirectionOperators at h ⊢
  refine ⟨?_, ?_, ?_, ?_, ?_, ?_⟩ <;>
    (rw [extractAux_append ts _ "" "" false false r h]; simp [extractAux])

/-- Claim C1, witness: instantiates the amended claim at
`["a", ">", "x.txt"]` followed by `>` `y.txt`, reproducing the spec's
last-operator-wins example for the target path. -/
theorem C1_last_target_wins_append_sticky_witness :
    processRedirectionOperators ["a", ">", "x.txt"] =
      some ⟨["a"], "x.txt", "", false, false⟩ ∧
    processRedirectionOperators (["a", ">", "x.txt"] ++ [">", "y.txt"]) =
      some ⟨["a"], "y.txt", "", false, false⟩ :=
  ⟨by decide,
   (C1_last_target_wins_append_sticky ["a", ">", "x.txt"]
      ⟨["a"], "x.txt", "", false, false⟩ "y.txt" (by decide)).1⟩

/-- Claim C6: for every token sequence on which redirection extraction
succeeds, the remaining fields together with the consumed operator and target
tokens are a permutation (multiset equality) of the original token sequence:
extraction neither loses nor duplicates any token. -/
theorem C6_extraction_preserves_tokens (ts : List String) (r : RedirResult)
    (h : processRedirectionOperators ts = some r) :
    (r.fields ++ redirConsumed ts).Perm ts :=
  extractAux_perm ts "" "" false false r h

/-- Claim C6, witness: instantiates token preservation at
`["ls", ">", "out.txt"]`. -/
theorem C6_extraction_preserves_tokens_witness :
    processRedirectionOperators ["ls", ">", "out.txt"] =
      some ⟨["ls"], "out.txt", "", false, false⟩ ∧
    ((["ls"] : List String) ++ redirConsumed ["ls", ">", "out.txt"]).Perm
      ["ls", ">", "out.txt"] :=
  ⟨by decide, C6_extraction_preserves_tokens ["ls", ">", "out.txt"]
      ⟨["ls"], "out.txt", "", false, false⟩ (by decide)⟩

/-- Claim C8, amended: a token sequence is rejected (syntax error, nothing
executed) exactly when the extraction scan reaches a redirection operator in
operator position with no following token; on every rejected sequence the
dispatcher reports the syntax error and invokes nothing.  (An operator token
already consumed as a preceding operator's target does not trigger
rejection.) -/
theorem C8_trailing_operator_rejection (ts : List String) :
    (processRedirectionOperators ts = none ↔ scanHitsTrailingOp ts = true) ∧
    (processRedirectionOperators ts = none →
      dispatchTokens ts = Action.syntaxErr) := by
  constructor
  · exact extractAux_none_iff ts "" "" false false
  · intro h
    simp [dispatchTokens, h]

/-- Claim C8, witness: the spec's example `["cmd", ">"]` is rejected and
nothing is executed. -/
theorem C8_trailing_operator_rejection_witness :
    processRedirectionOperators ["cmd", ">"] = none ∧
    scanHitsTrailingOp ["cmd", ">"] = true ∧
    dispatchTokens ["cmd", ">"] = Action.syntaxErr :=
  ⟨by decide, (C8_trailing_operator_rejection ["cmd", ">"]).1.mp (by decide),
   (C8_trailing_operator_rejection ["cmd", ">"]).2 (by decide)⟩

/-- Claim C8, counterexample: in `["cmd", ">", ">"]` the last token is a
redirection operator with no following token, yet the line is NOT rejected:
the final `>` was consumed as the first operator's target and the command is
dispatched externally. -/
theorem C8_counterexample :
    isRedirOp ">" = true ∧
    processRedirectionOperators ["cmd", ">", ">"] =
      some ⟨["cmd"], ">", "", false, false⟩ ∧
    dispatchTokens ["cmd", ">", ">"] ≠ Action.syntaxErr := by
  decide

/-- Claim C2, counterexample: an unknown command with no redirection at all
reports `"zzzNoSuchCmd: command not found"` on the shell's standard output
(`fmt.Println` in `executeCommand`), not on its error stream. -/
theorem C2_counterexample :
    executeExternalWithRedirection "zzzNoSuchCmd" "" "" false false true true true =
      ⟨false, some (notFoundMsg "zzzNoSuchCmd", Dest.stdout)⟩ ∧
    Dest.stdout ≠ Dest.stderr := by
  decide

/-- Claim C2, amended: when search-path lookup fails, no process is spawned
and the `"<name>: command not found"` message goes to the redirected stderr
target when one is set and opens (it is lost when the open fails), to the
shell's own error stream when redirection is set but stderr's is not, and to
the shell's standard output when no redirection at all is set. -/
theorem C2_not_found_routing (cmdName stdoutFile stderrFile : String)
    (stderrAppend runOk openStdoutOk openStderrOk : Bool) :
    executeExternalWithRedirection cmdName stdoutFile stderrFile stderrAppend
        false runOk openStdoutOk openStderrOk =
      ⟨false,
        if stderrFile ≠ "" then
          (if openStderrOk then
            some (notFoundMsg cmdName, Dest.targetFile stderrFile stderrAppend)
          else none)
        else if stdoutFile ≠ "" then some (notFoundMsg cmdName, Dest.stderr)
        else some (notFoundMsg cmdName, Dest.stdout)⟩ := by
  by_cases hso : stdoutFile = "" <;> by_cases hse : stderrFile = "" <;>
    simp [executeExternalWithRedirection, executeCommand, outputError,
      hso, hse]

/-- Claim C3 (code bug): the builtin name tables are NOT one shared mapping.
The dispatcher's table and the completion engine's `builtinCMDs` agree on
membership for every name, but `typeHandler`'s map lacks `"clear"` (and
`ls`, `cat`, `cp`, `mv`, `rm`, `mkdir`, `rmdir`), so the `type` builtin does
not classify `clear` as a builtin even though the dispatcher runs it as one
and the README documents it as one. -/
theorem C3_type_table_disagrees :
    dispatchIsBuiltin "clear" = true ∧
    ("clear" ∈ builtinCMDs) ∧
    typeIsBuiltin "clear" = false ∧
    (∀ n : String, dispatchIsBuiltin n = builtinCMDs.contains n) ∧
    ¬ (∀ n : String, typeIsBuiltin n = dispatchIsBuiltin n) := by
  refine ⟨by decide, by decide, by decide, fun n => rfl, fun h => ?_⟩
  have := h "clear"
  simp [typeIsBuiltin, dispatchIsBuiltin, typeBuiltins, dispatchTable] at this

/-- Claim C4, counterexample: with builtin table `{"echo", "exit"}` the
sought text `"ex"` matches only `"exit"` (`"echo"` does not start with
`"ex"`), so the first Tab press inserts `"it "` rather than beeping, and the
second press does not return the two-candidate list `{"echo", "exit"}`. -/
theorem C4_counterexample :
    autocomplete ["echo", "exit"] [] "ex" 1 = ("it", ["exit"]) ∧
    autocomplete ["echo", "exit"] [] "ex" 2 = ("it", ["exit"]) ∧
    (["exit"] : List String) ≠ ["echo", "exit"] ∧
    tabRespond ["echo", "exit"] [] "ex" 1 ≠ TabOutcome.bell := by
  decide

/-- Claim C4, amended: with builtin table `{"echo", "exit"}`, completing
`"ex"` yields the single match `"exit"`, inserting `"it"` plus a trailing
space; completing `"e"` yields the two matches with no further extension, so
the first Tab press beeps and the second displays `["echo", "exit"]`;
completing `"ech"` yields the single match `"echo"`, inserting `"o"` plus a
trailing space. -/
theorem C4_completion_vectors :
    tabRespond ["echo", "exit"] [] "ex" 1 = TabOutcome.insert "it " ∧
    tabRespond ["echo", "exit"] [] "e" 1 = TabOutcome.bell ∧
    tabRespond ["echo", "exit"] [] "e" 2 = TabOutcome.display ["echo", "exit"] ∧
    tabRespond ["echo", "exit"] [] "ech" 1 = TabOutcome.insert "o " := by
  decide

theorem fsGet_fsSet (fs : FS) (p : String) (st : PathSt) :
    fsGet (fsSet fs p st) p = st := by
  induction fs with
  | nil => simp [fsSet, fsGet]
  | cons head rest ih =>
    obtain ⟨q, st0⟩ := head
    by_cases h : q = p <;> simp [fsSet, fsGet, h, ih]

theorem openFile_some_state (fs fs1 : FS) (fileName : String) (appendMode : Bool)
    (h : openFile fs fileName appendMode = some fs1) :
    fsGet fs1 fileName =
      .file (if appendMode then
              (match fsGet fs fileName with
                | .file content => content
                | _ => "")
            else "") := by
  unfold openFile at h
  cases hfs : fsGet fs fileName with
  | absent =>
    rw [hfs] at h
    simp only [Option.some.injEq] at h
    rw [← h, fsGet_fsSet]
    cases appendMode <;> simp
  | file content =>
    rw [hfs] at h
    simp only [Option.some.injEq] at h
    rw [← h, fsGet_fsSet]
  | unopenable =>
    rw [hfs] at h
    simp at h

/-- Claim C10: when both redirection targets are set and the stdout target
opens successfully but the stderr target fails to open, the builtin handler
is not invoked, yet the stdout target has already been created (truncated in
truncate mode) as a lasting file-system side effect. -/
theorem C10_stdout_opened_before_stderr_failure (fs fs1 : FS)
    (stdoutFile stderrFile : String) (stdoutAppend stderrAppend : Bool)
    (hso : stdoutFile ≠ "") (hse : stderrFile ≠ "")
    (hopen : openFile fs stdoutFile stdoutAppend = some fs1)
    (hfail : openFile fs1 stderrFile stderrAppend = none) :
    executeBuiltinWithRedirection fs stdoutFile stderrFile stdoutAppend
        stderrAppend = (false, fs1) ∧
    fsGet fs1 stdoutFile =
      .file (if stdoutAppend then
              (match fsGet fs stdoutFile with
                | .file content => content
                | _ => "")
            else "") := by
  constructor
  · simp [executeBuiltinWithRedirection, hso, hse, hopen, hfail]
  · exact openFile_some_state fs fs1 stdoutFile stdoutAppend hopen

theorem stringMk_ne_empty (cs : List Char) (h : cs ≠ []) :
    String.mk cs ≠ "" := by
  intro heq
  apply h
  have := congrArg String.data heq
  simpa using this

theorem parseStep_result (st : ParseSt) (c : Char) :
    (parseStep st c).result = st.result ∨
    ((parseStep st c).result = st.result ++ [String.mk st.current] ∧
      st.current ≠ []) := by
  unfold parseStep
  repeat' split
  all_goals simp_all
  all_goals exact List.length_pos.mp (by assumption)

theorem foldl_parseStep_no_empty (cs : List Char) (st : ParseSt)
    (h : ("" : String) ∉ st.result) :
    ("" : String) ∉ (cs.foldl parseStep st).result := by
  induction cs generalizing st with
  | nil => exact h
  | cons c cs2 ih =>
    rw [List.foldl_cons]
    apply ih
    rcases parseStep_result st c with h1 | ⟨h1, h2⟩
    · rw [h1]; exact h
    · rw [h1]
      simp only [List.mem_append, List.mem_singleton]
      rintro (hmem | heq)
      · exact h hmem
      · exact stringMk_ne_empty st.current h2 heq.symm

theorem parseCommand_no_empty (s : String) : ("" : String) ∉ parseCommand s := by
  unfold parseCommand
  simp only [List.mem_append]
  rintro (hmem | hmem)
  · exact foldl_parseStep_no_empty s.data parseInit (by simp [parseInit]) hmem
  · split at hmem
    · next hlen =>
      simp only [List.mem_singleton] at hmem
      exact stringMk_ne_empty _ (by intro h0; simp [h0] at hlen) hmem.symm
    · simp at hmem

theorem parseStep_space_idem (st : ParseSt) (h1 : st.inSingle = false)
    (h2 : st.inDouble = false) (h3 : st.escaped = false) :
    parseStep (parseStep st ' ') ' ' = parseStep st ' ' ∧
    (parseStep st ' ').inSingle = false ∧
    (parseStep st ' ').inDouble = false ∧
    (parseStep st ' ').escaped = false := by
  unfold parseStep
  simp [h1, h2, h3, squote, dquote]
  split <;> simp [h1, h2, h3]
/-- Claim C5, counterexample: a tab character is whitespace, yet the
tokenizer does not treat it as a separator: `a<TAB>b` is one token, not two. -/
theorem C5_counterexample :
    (Char.ofNat 9).isWhitespace = true ∧
    parseCommand (String.mk ['a', Char.ofNat 9, 'b']) =
      [String.mk ['a', Char.ofNat 9, 'b']] ∧
    parseCommand (String.mk ['a', Char.ofNat 9, 'b']) ≠ ["a", "b"] := by
  decide

/-- Claim C5, amended: the tokenizer treats runs of unquoted SPACE characters
(only `' '`, not all whitespace) as a single separator: the empty string is
never emitted as a token, processing a second consecutive space from an
unquoted state is the identity (runs collapse), and spaces separate tokens. -/
theorem C5_space_only_separation :
    (∀ s : String, ("" : String) ∉ parseCommand s) ∧
    (∀ st : ParseSt, st.inSingle = false → st.inDouble = false →
      st.escaped = false →
      parseStep (parseStep st ' ') ' ' = parseStep st ' ' ∧
      (parseStep st ' ').inSingle = false ∧
      (parseStep st ' ').inDouble = false ∧
      (parseStep st ' ').escaped = false) ∧
    parseCommand "a b" = ["a", "b"] ∧
    parseCommand "a  b" = ["a", "b"] ∧
    parseCommand "a   b  c" = ["a", "b", "c"] :=
  ⟨parseCommand_no_empty, parseStep_space_idem, by decide, by decide, by decide⟩

/-- Claim C5, witness: instantiates the amended claim at the concrete line
`"a  b"` and at the initial scanner state. -/
theorem C5_space_only_separation_witness :
    ("" : String) ∉ parseCommand "a  b" ∧
    parseStep (parseStep parseInit ' ') ' ' = parseStep parseInit ' ' :=
  ⟨C5_space_only_separation.1 "a  b",
   (C5_space_only_separation.2.1 parseInit rfl rfl rfl).1⟩

/-- Claim C9: the tokenizer satisfies the quoting test vectors, and inside
double quotes a backslash escapes only dollar, backtick, double quote,
backslash and newline, being preserved literally alongside any other
following character. -/
theorem C9_tokenizer_quoting (st : ParseSt) (c : Char)
    (hesc : st.escaped = true) :
    ((st.inDouble = true ∧ c ≠ '$' ∧ c ≠ bquote ∧ c ≠ dquote ∧ c ≠ '\\' ∧
        c ≠ '\n') →
      parseStep st c =
        { st with current := st.current ++ ['\\', c], escaped := false }) ∧
    ((st.inDouble = false ∨ c = '$' ∨ c = bquote ∨ c = dquote ∨ c = '\\' ∨
        c = '\n') →
      parseStep st c =
        { st with current := st.current ++ [c], escaped := false }) ∧
    parseCommand "a 'b c' d" = ["a", "b c", "d"] ∧
    parseCommand "a \"b\\\"c\" d" = ["a", String.mk ['b', dquote, 'c'], "d"] ∧
    parseCommand "a\\ b" = ["a b"] := by
  refine ⟨?_, ?_, by decide, by decide, by decide⟩
  · rintro ⟨hd, h1, h2, h3, h4, h5⟩
    unfold parseStep
    simp [hesc, hd, h1, h2, h3, h4, h5]
  · rintro (h | h | h | h | h | h) <;>
      (unfold parseStep; simp [hesc, h])
/-- Claim C9, witness: the backslash-preserving rule applied in a concrete
escaped, in-double-quote state on the letter `c`. -/
theorem C9_tokenizer_quoting_witness :
    parseStep ⟨[], ['b'], false, true, true⟩ 'c' =
      { result := [], current := ['b', '\\', 'c'], inSingle := false,
        inDouble := true, escaped := false } :=
  (C9_tokenizer_quoting ⟨[], ['b'], false, true, true⟩ 'c' rfl).1
    ⟨rfl, by decide, by decide, by decide, by decide, by decide⟩

theorem entryStep_mem (pfx n : String) (acc : List String) (e : DirEntry) :
    n ∈ entryStep pfx acc e ↔
      n ∈ acc ∨ (e.name = n ∧ e.isDir = false ∧ hasPrefixS n pfx = true ∧
        n ≠ pfx) := by
  unfold entryStep
  repeat' split
  all_goals simp_all [List.nodup_append]
  all_goals aesop
theorem foldl_entryStep_mem (pfx n : String) (entries : List DirEntry)
    (acc : List String) :
    n ∈ entries.foldl (entryStep pfx) acc ↔
      n ∈ acc ∨ (hasPrefixS n pfx = true ∧ n ≠ pfx ∧
        ∃ e ∈ entries, e.name = n ∧ e.isDir = false) := by
  induction entries generalizing acc with
  | nil => simp
  | cons e es ih =>
    rw [List.foldl_cons, ih, entryStep_mem]
    constructor
    · rintro ((h | ⟨h1, h2, h3, h4⟩) | ⟨h1, h2, e2, he2, h3, h4⟩)
      · exact Or.inl h
      · exact Or.inr ⟨h3, h4, e, List.mem_cons_self e es, h1, h2⟩
      · exact Or.inr ⟨h1, h2, e2, List.mem_cons_of_mem e he2, h3, h4⟩
    · rintro (h | ⟨h1, h2, e2, he2, h3, h4⟩)
      · exact Or.inl (Or.inl h)
      · rcases List.mem_cons.mp he2 with heq | hmem
        · exact Or.inl (Or.inr ⟨heq ▸ h3, heq ▸ h4, h1, h2⟩)
        · exact Or.inr ⟨h1, h2, e2, hmem, h3, h4⟩

theorem foldl_dirStep_mem (pfx n : String) (fs : FileSys)
    (acc : List String) :
    n ∈ fs.foldl (dirStep pfx) acc ↔
      n ∈ acc ∨ (hasPrefixS n pfx = true ∧ n ≠ pfx ∧
        ∃ d ∈ fs, ∃ es, d = some es ∧ ∃ e ∈ es, e.name = n ∧
          e.isDir = false) := by
  induction fs generalizing acc with
  | nil => simp
  | cons d ds ih =>
    rw [List.foldl_cons, ih]
    cases d with
    | none =>
      simp only [dirStep]
      constructor
      · rintro (h | ⟨h1, h2, d2, hd2, es, hes, he⟩)
        · exact Or.inl h
        · exact Or.inr ⟨h1, h2, d2, List.mem_cons_of_mem none hd2, es, hes, he⟩
      · rintro (h | ⟨h1, h2, d2, hd2, es, hes, he⟩)
        · exact Or.inl h
        · rcases List.mem_cons.mp hd2 with heq | hmem
          · simp [heq] at hes
          · exact Or.inr ⟨h1, h2, d2, hmem, es, hes, he⟩
    | some entries =>
      simp only [dirStep]
      rw [foldl_entryStep_mem]
      constructor
      · rintro ((h | ⟨h1, h2, e, he, h3⟩) | ⟨h1, h2, d2, hd2, es, hes, he⟩)
        · exact Or.inl h
        · exact Or.inr ⟨h1, h2, some entries, List.mem_cons_self _ _,
            entries, rfl, e, he, h3⟩
        · exact Or.inr ⟨h1, h2, d2, List.mem_cons_of_mem _ hd2, es, hes, he⟩
      · rintro (h | ⟨h1, h2, d2, hd2, es, hes, he⟩)
        · exact Or.inl (Or.inl h)
        · rcases List.mem_cons.mp hd2 with heq | hmem
          · subst heq
            have hinj : entries = es := by injection hes
            subst hinj
            exact Or.inl (Or.inr ⟨h1, h2, he⟩)
          · exact Or.inr ⟨h1, h2, d2, hmem, es, hes, he⟩
theorem entryStep_nodup (pfx : String) (acc : List String) (e : DirEntry)
    (h : acc.Nodup) : (entryStep pfx acc e).Nodup := by
  unfold entryStep
  repeat' split
  all_goals simp_all [List.nodup_append, List.disjoint_singleton]

theorem foldl_entryStep_nodup (pfx : String) (entries : List DirEntry)
    (acc : List String) (h : acc.Nodup) :
    (entries.foldl (entryStep pfx) acc).Nodup := by
  induction entries generalizing acc with
  | nil => exact h
  | cons e es ih =>
    rw [List.foldl_cons]
    exact ih _ (entryStep_nodup pfx acc e h)

theorem foldl_dirStep_nodup (pfx : String) (fs : FileSys)
    (acc : List String) (h : acc.Nodup) :
    (fs.foldl (dirStep pfx) acc).Nodup := by
  induction fs generalizing acc with
  | nil => exact h
  | cons d ds ih =>
    rw [List.foldl_cons]
    cases d with
    | none => exact ih _ h
    | some entries => exact ih _ (foldl_entryStep_nodup pfx entries acc h)

theorem pathSearch_mem (fs : FileSys) (pfx n : String) :
    n ∈ pathSearch fs pfx ↔
      hasPrefixS n pfx = true ∧ n ≠ pfx ∧
      ∃ d ∈ fs, ∃ es, d = some es ∧ ∃ e ∈ es, e.name = n ∧
        e.isDir = false := by
  unfold pathSearch
  rw [foldl_dirStep_mem]
  simp

/-- Claim C7, counterexample: the path search also excludes an exact match to
the sought text (`name != prefix` in the Go loop): a non-directory entry
named exactly `"zeta"` is a "non-directory entry starting with the prefix",
yet it is not collected, and completion produces nothing. -/
theorem C7_counterexample :
    hasPrefixS "zeta" "zeta" = true ∧
    (⟨"zeta", false⟩ : DirEntry).isDir = false ∧
    builtinMatchesOf builtinCMDs "zeta" = [] ∧
    pathSearch [some [⟨"zeta", false⟩]] "zeta" = [] ∧
    autocomplete builtinCMDs [some [⟨"zeta", false⟩]] "zeta" 1 = ("", []) := by
  decide

/-- Claim C7, amended: candidate gathering first collects builtin names
having the sought text as a proper starting segment; the path directories are
consulted only when that builtin search yields nothing, collecting
non-directory entries starting with the sought text AND differing from it
(exact matches are excluded here too), de-duplicated by name; path-derived
candidates are never combined with builtin candidates. -/
theorem C7_candidate_gathering (fs : FileSys) (pfx : String) :
    gatherMatches builtinCMDs fs pfx =
      (if builtinMatchesOf builtinCMDs pfx = [] then pathSearch fs pfx
       else builtinMatchesOf builtinCMDs pfx) ∧
    builtinMatchesOf builtinCMDs pfx =
      builtinCMDs.filter (fun cmd => hasPrefixS cmd pfx && cmd != pfx) ∧
    (pathSearch fs pfx).Nodup ∧
    (∀ n : String, n ∈ pathSearch fs pfx ↔
      (hasPrefixS n pfx = true ∧ n ≠ pfx ∧
        ∃ d ∈ fs, ∃ es, d = some es ∧ ∃ e ∈ es, e.name = n ∧
          e.isDir = false)) :=
  ⟨rfl, rfl, foldl_dirStep_nodup pfx fs [] List.nodup_nil,
   fun n => pathSearch_mem fs pfx n⟩

/-- Claim C10, witness: a concrete file system with an unopenable
`err.txt`: `out.txt` ends up created and empty while the handler is never
invoked. -/
theorem C10_stdout_opened_before_stderr_failure_witness :
    openFile [("err.txt", PathSt.unopenable)] "out.txt" false =
      some [("err.txt", PathSt.unopenable), ("out.txt", PathSt.file "")] ∧
    openFile [("err.txt", PathSt.unopenable), ("out.txt", PathSt.file "")]
      "err.txt" false = none ∧
    executeBuiltinWithRedirection [("err.txt", PathSt.unopenable)] "out.txt"
      "err.txt" false false =
      (false, [("err.txt", PathSt.unopenable), ("out.txt", PathSt.file "")]) ∧
    fsGet [("err.txt", PathSt.unopenable), ("out.txt", PathSt.file "")]
      "out.txt" = PathSt.file "" := by
  refine ⟨by decide, by decide, ?_, ?_⟩
  · exact (C10_stdout_opened_before_stderr_failure
      [("err.txt", PathSt.unopenable)]
      [("err.txt", PathSt.unopenable), ("out.txt", PathSt.file "")]
      "out.txt" "err.txt" false false (by decide) (by decide) (by decide)
      (by decide)).1
  · exact (C10_stdout_opened_before_stderr_failure
      [("err.txt", PathSt.unopenable)]
      [("err.txt", PathSt.unopenable), ("out.txt", PathSt.file "")]
      "out.txt" "err.txt" false false (by decide) (by decide) (by decide)
      (by decide)).2
end ShX
